import Mathlib

/-!
Shallow embedding of `combine_udunits2_xml.py`, the UDUNITS-2 XML
combine-and-publish script, together with theorems settling the claims
about its behaviour.

The embedding models:
* XML element trees (`XElem`), with `findall` (direct children by tag),
  `iterElems` (the element and all its descendants, preorder, as
  `ElementTree.iter` yields them) and the tag-rewriting loop of
  `update_nexus` (`relabel`);
* Python `dict` operations on association lists (`dictGet`, `dictGetLast`,
  `dictInsert`), keeping insertion order as Python 3.7+ dicts do;
* `should_update_nexus`, over an abstract HTTP response carrying the status
  code and the namespace declarations parsed from the body;
* the merge loop of `update_nexus` (`processSystems`) and the combined
  document it builds (`CombinedDoc`, `buildCombined`), with the list of
  sub-document URLs fetched by the loop kept as a trace;
* `publish_to_nexus`, as a trace of remote operations driven by an
  environment of HTTP responses (`PubEnv`).

Network fetching and XML byte-level parsing are abstracted: a fetch is a
total function from URL to the parsed document, and an HTTP response is its
status plus whatever the script extracts from the body.
-/

/-- An XML element: tag, text content, list of child elements
(attributes of sub-document elements are never inspected by the script,
so they are not modelled). -/
inductive XElem : Type where
  | node (tag : String) (text : String) (children : List XElem) : XElem
deriving Repr

def XElem.tag : XElem → String
  | .node t _ _ => t

def XElem.text : XElem → String
  | .node _ s _ => s

def XElem.children : XElem → List XElem
  | .node _ _ cs => cs

/-- `element.findall(tag)`: the direct children whose tag matches. -/
def findall (t : String) (e : XElem) : List XElem :=
  e.children.filter (fun c => c.tag == t)

mutual
/-- The tag-rewriting loop of `update_nexus` (lines 359-361): for a selected
element, `element.iter()` yields the element itself and every descendant,
and each visited node's tag is rewritten to `prefix:tag`. -/
def relabel (p : String) : XElem → XElem
  | .node t s cs => .node (p ++ ":" ++ t) s (relabelList p cs)
def relabelList (p : String) : List XElem → List XElem
  | [] => []
  | c :: cs => relabel p c :: relabelList p cs
end

mutual
/-- `element.iter()`: the element itself followed by all descendants in
document (preorder) order. -/
def iterElems : XElem → List XElem
  | .node t s cs => .node t s cs :: iterList cs
def iterList : List XElem → List XElem
  | [] => []
  | c :: cs => iterElems c ++ iterList cs
end

/-- Python `dict.get` on an association list built by successive
assignments: the last binding wins. -/
def dictGetLast (l : List (String × String)) (k : String) : Option String :=
  (l.reverse.find? (fun p => p.1 == k)).map (fun p => p.2)

/-- Lookup in an association list whose keys are distinct (such as the
literal `prefix_map`). -/
def dictGet (l : List (String × String)) (k : String) : Option String :=
  (l.find? (fun p => p.1 == k)).map (fun p => p.2)

/-- Python `dict` assignment `d[k] = v`, keeping insertion order: an
existing key keeps its position with the value overwritten, a fresh key is
appended. -/
def dictInsert (l : List (String × String)) (k v : String) : List (String × String) :=
  if l.any (fun p => p.1 == k) then
    l.map (fun p => if p.1 == k then (k, v) else p)
  else
    l ++ [(k, v)]

/-- Errors the script can raise; each constructor corresponds to a Python
exception observed in `combine_udunits2_xml.py`. -/
inductive PyError : Type where
  | httpError (status : Nat)
  | valueError (msg : String)
  | keyError (key : String)
  | indexError
  | attributeError
deriving Repr, DecidableEq

/-- `requests.Response.raise_for_status` raises exactly for 4xx and 5xx
status codes; statuses below 400 pass. -/
def raiseForStatusFails (status : Nat) : Bool :=
  decide (400 ≤ status)

/-- The fixed filename-to-prefix assignment of `update_nexus`
(lines 313-319). -/
def prefix_map : List (String × String) :=
  [("udunits2-prefixes.xml", "p"),
   ("udunits2-base.xml", "b"),
   ("udunits2-derived.xml", "d"),
   ("udunits2-accepted.xml", "a"),
   ("udunits2-common.xml", "c")]

/-- Element selection for one sub-document (lines 344-356): take the
`unit` children; only if there are none, take the `prefix` children; if
there are neither, raise `ValueError`. -/
def selectElems (system_filename : String) (system : XElem) :
    Except PyError (List XElem) :=
  let units := findall "unit" system
  if units.length > 0 then
    Except.ok units
  else
    let prefixes := findall "prefix" system
    if prefixes.length > 0 then
      Except.ok prefixes
    else
      Except.error (PyError.valueError
        ("...no <prefix> or <unit> elements found in " ++ system_filename ++ "."))

/-- `get_udunits2_copyright_text` (lines 34-49); `datetime.today().year`
is passed in as the explicit parameter `year`. -/
def get_udunits2_copyright_text (year : Nat) (version : String) : String :=
  "Copyright " ++ toString year ++ " University Corporation for Atmospheric Research\n\n"
    ++ "This file is derived from the UDUNITS-2 package.  See the UDUNITS-2_COPYRIGHT\n"
    ++ "https://docs.unidata.ucar.edu/thredds/udunits2/" ++ version
    ++ "/UDUNITS-2_COPYRIGHT for copying and\n"
    ++ "redistribution conditions.\n"

/-- `version.replace('v', '')` (line 383): for the one-character pattern
`'v'` and empty replacement, Python's `str.replace` removes every
occurrence of the character. -/
def stripV (s : String) : String :=
  String.mk (s.data.filter (fun c => c != 'v'))

/-- Split a character list at every occurrence of the separator; the
result always has one more part than there are separators. -/
def splitChar (sep : Char) : List Char → List (List Char)
  | [] => [[]]
  | c :: cs =>
    match splitChar sep cs with
    | [] => []
    | h :: t => if c = sep then [] :: h :: t else (c :: h) :: t

/-- Python `s.split(sep)` for a one-character separator, as used at
lines 280 and 282 with `'/'` and `'.'`: empty parts are kept, and the
result of splitting the empty string is `[""]`. -/
def pySplitOn (s : String) (sep : Char) : List String :=
  (splitChar sep s.data).map String.mk

/-- An HTTP response as `should_update_nexus` consumes it: the status
code, and the namespace declarations that `ET.iterparse(..., ['start-ns'])`
extracts from the body, in document order.  Python builds a `dict` from
those pairs, so a repeated key keeps its last value. -/
structure HttpResponse : Type where
  status : Nat
  nsDecls : List (String × String)
deriving Repr

/-- `should_update_nexus` (lines 220-290).  Input: the latest release
version string and the response of the single GET against the Nexus
asset-search-and-download URL.  A 404 is the bootstrap case (update
required); any other 4xx/5xx raises; otherwise the version token is the
element at index 5 of the accepted-namespace URL split on `/`, it must
have at least two `.`-separated parts, and an update is required exactly
when it differs from the latest version. -/
def should_update_nexus (latest_version : String) (resp : HttpResponse) :
    Except PyError Bool :=
  if resp.status == 404 then
    Except.ok true
  else if raiseForStatusFails resp.status then
    Except.error (PyError.httpError resp.status)
  else
    match dictGetLast resp.nsDecls "a" with
    | none => Except.error PyError.attributeError
    | some nsUrl =>
      match (pySplitOn nsUrl '/').get? 5 with
      | none => Except.error PyError.indexError
      | some udunits2_version_nexus =>
        if (pySplitOn udunits2_version_nexus '.').length < 2 then
          Except.error (PyError.valueError
            ("nexus version " ++ udunits2_version_nexus
              ++ " does not appear to be an actual version number. exiting."))
        else
          Except.ok (latest_version != udunits2_version_nexus)

/-- The top-level decision at line 413: `if not should_update_nexus(...)`,
i.e. the merge-and-publish path `update_nexus` runs exactly when the
staleness check returned this boolean. -/
def main_invokes_update (shouldUpdate : Bool) : Bool :=
  !shouldUpdate

/-- The base URL for the per-version resources
(`udunits_resource_base_url`, line 326). -/
def resource_base (version : String) : String :=
  "https://raw.githubusercontent.com/Unidata/UDUNITS-2/" ++ version ++ "/lib/"

/-- The manifest: the text of each `import` child of the fetched
`udunits2.xml` registry document (lines 328-336). -/
def manifest_of (registry : XElem) : List String :=
  (findall "import" registry).map XElem.text

/-- The per-sub-document loop of `update_nexus` (lines 335-364), with the
namespace dict and the accumulated element list threaded through.  The
first component of the result is the list of sub-document URLs fetched by
the loop, in order; the second is either the error raised or the final
namespace dict together with `all_elements`. -/
def processSystems (base : String) (fetch : String → XElem) :
    List String → List (String × String) → List XElem →
    List String × Except PyError (List (String × String) × List XElem)
  | [], ns, acc => ([], Except.ok (ns, acc))
  | system_filename :: rest, ns, acc =>
    match dictGet prefix_map system_filename with
    | none => ([], Except.error (PyError.keyError system_filename))
    | some p =>
      let url := base ++ system_filename
      let ns1 := dictInsert ns p url
      let system := fetch url
      match selectElems system_filename system with
      | Except.error e => ([url], Except.error e)
      | Except.ok elements_to_add =>
        let relabeled := elements_to_add.map (relabel p)
        let r := processSystems base fetch rest ns1 (acc ++ relabeled)
        (url :: r.1, r.2)

/-- The fixed top-level namespace code (`udunits2_prefix`, line 321). -/
def udunits2_pfx : String := "u2"

def udunits2_uri : String := "https://doi.org/10.5065/D6KD1WN0"

/-- The combined document that `update_nexus` builds (lines 366-388): a
root element `udunits-2` whose attributes are the namespace declarations
(the fixed `xmlns:u2` set first, then one per entry of the namespace
dict), a leading comment holding the copyright text, and a single
`u2:unit-system` wrapper element holding all accumulated elements. -/
structure CombinedDoc : Type where
  rootTag : String
  rootAttrs : List (String × String)
  comment : String
  wrapperTag : String
  elements : List XElem
deriving Repr

def buildCombined (version : String) (year : Nat)
    (namespaces : List (String × String)) (all_elements : List XElem) :
    CombinedDoc :=
  let attrs0 := dictInsert [] ("xmlns:" ++ udunits2_pfx) udunits2_uri
  let attrs := namespaces.foldl
    (fun acc pu => dictInsert acc ("xmlns:" ++ pu.1) pu.2) attrs0
  { rootTag := "udunits-2"
  , rootAttrs := attrs
  , comment := get_udunits2_copyright_text year (stripV version)
  , wrapperTag := udunits2_pfx ++ ":unit-system"
  , elements := all_elements }

/-- The merge phase of `update_nexus` (lines 293-388, up to and including
writing the combined document; the publish call is modelled separately by
`publish_to_nexus`).  `fetch` abstracts `requests.get` composed with
`ET.fromstring`; the first component of the result is the list of
sub-document URLs the manifest loop fetched. -/
def update_nexus (version : String) (year : Nat) (fetch : String → XElem) :
    List String × Except PyError CombinedDoc :=
  let base := resource_base version
  let registry := fetch (base ++ "udunits2.xml")
  let manifest := manifest_of registry
  let r := processSystems base fetch manifest [] []
  (r.1,
   match r.2 with
   | Except.error e => Except.error e
   | Except.ok nsEls => Except.ok (buildCombined version year nsEls.1 nsEls.2))

/-- One item of the Nexus search result; `item.get('id')` returning `None`
and an empty-string id are both falsy in Python and are modelled as the
empty string. -/
structure SearchItem : Type where
  id : String
  name : String
deriving Repr, DecidableEq

/-- A remote operation performed by `publish_to_nexus`, in the order the
trace records them. -/
inductive PubOp : Type where
  | post (directory : String)
  | search (group : String)
  | delete (assetId : String)
  | seekZero
deriving Repr, DecidableEq

/-- The environment of HTTP responses that one run of `publish_to_nexus`
observes: the status of the versioned upload, the status and result items
of the search on the `current` group, the status of each delete (by asset
id), and the status of the final upload to `current`. -/
structure PubEnv : Type where
  postVersionedStatus : Nat
  searchStatus : Nat
  searchItems : List SearchItem
  deleteStatus : String → Nat
  postCurrentStatus : Nat

/-- `raw_directory_current.rstrip('/')` (line 178). -/
def rstripSlash (s : String) : String :=
  String.mk (s.data.reverse.dropWhile (fun c => c == '/')).reverse

def raw_directory_versioned (version : String) : String :=
  "/udunits2/" ++ version ++ "/"

def raw_directory_current : String := "/udunits2/current/"

/-- The delete loop of `publish_to_nexus` (lines 192-198): for each search
item with a truthy id, issue a DELETE and raise on a 4xx/5xx response. -/
def runDeletes (deleteStatus : String → Nat) :
    List SearchItem → List PubOp × Except PyError Unit
  | [] => ([], Except.ok ())
  | item :: rest =>
    if item.id != "" then
      if raiseForStatusFails (deleteStatus item.id) then
        ([PubOp.delete item.id], Except.error (PyError.httpError (deleteStatus item.id)))
      else
        let r := runDeletes deleteStatus rest
        (PubOp.delete item.id :: r.1, r.2)
    else
      runDeletes deleteStatus rest

/-- `publish_to_nexus` (lines 133-217) as the trace of remote operations
it performs, paired with normal or error termination.  The steps, in
source order: POST both files to the versioned directory; GET the search
for the `current` group; DELETE each found asset one by one; seek both
files back to the start; POST both files to the `current` directory.
`raise_for_status` after each call aborts the rest of the run on any
4xx/5xx response. -/
def publish_to_nexus (version : String) (env : PubEnv) :
    List PubOp × Except PyError Unit :=
  let tr1 := [PubOp.post (raw_directory_versioned version)]
  if raiseForStatusFails env.postVersionedStatus then
    (tr1, Except.error (PyError.httpError env.postVersionedStatus))
  else
    let tr2 := tr1 ++ [PubOp.search (rstripSlash raw_directory_current)]
    if raiseForStatusFails env.searchStatus then
      (tr2, Except.error (PyError.httpError env.searchStatus))
    else
      let d := runDeletes env.deleteStatus env.searchItems
      match d.2 with
      | Except.error e => (tr2 ++ d.1, Except.error e)
      | Except.ok _ =>
        let tr3 := tr2 ++ d.1 ++ [PubOp.seekZero, PubOp.post raw_directory_current]
        if raiseForStatusFails env.postCurrentStatus then
          (tr3, Except.error (PyError.httpError env.postCurrentStatus))
        else
          (tr3, Except.ok ())

/-- Follows the spec's words (§4.3 step 3 and §8, first bullet):
the elements a sub-document contributes are its `unit` elements, or, when
there are none, its `prefix` elements. -/
def spec_selected (system : XElem) : List XElem :=
  let units := findall "unit" system
  if units.isEmpty then findall "prefix" system else units

/-- Follows the spec's words (§3, namespace map): the prefix code assigned
to a sub-document filename (defaults to `""` outside the fixed map, a
case the theorems exclude). -/
def spec_prefix_code (fn : String) : String :=
  (dictGet prefix_map fn).getD ""

/-- Follows the spec's words (§8, first bullet; §4.3 step 4): the
union of the elements contributed by each sub-document, each relabeled
with its assigned prefix, source order preserved within each sub-document
and sub-documents in manifest order. -/
def spec_merged_elements (base : String) (fetch : String → XElem)
    (manifest : List String) : List XElem :=
  (manifest.map (fun fn =>
    (spec_selected (fetch (base ++ fn))).map
      (relabel (spec_prefix_code fn)))).flatten

/-- Follows the spec's words (§4.4, §8 end-to-end scenario): the
full remote-operation sequence of a successful publish — versioned
upload, search of the `current` group, one delete per found asset in
search order, rewind, upload to `current`. -/
def spec_publish_trace (version : String) (env : PubEnv) : List PubOp :=
  PubOp.post (raw_directory_versioned version)
    :: PubOp.search (rstripSlash raw_directory_current)
    :: ((env.searchItems.filter (fun i => i.id != "")).map
          (fun i => PubOp.delete i.id)
        ++ [PubOp.seekZero, PubOp.post raw_directory_current])

/-- Example registry document: a manifest listing two sub-documents. -/
def exRegistry : XElem :=
  XElem.node "udunits2" "" [XElem.node "import" "udunits2-base.xml" [],
                            XElem.node "import" "udunits2-prefixes.xml" []]

/-- Example sub-document with three `unit` elements. -/
def exBaseDoc : XElem :=
  XElem.node "unit-system" ""
    [XElem.node "unit" "" [XElem.node "name" "metre" []],
     XElem.node "unit" "" [],
     XElem.node "unit" "" []]

/-- Example sub-document with two `prefix` elements and no `unit`
elements. -/
def exPrefixesDoc : XElem :=
  XElem.node "unit-system" ""
    [XElem.node "prefix" "" [], XElem.node "prefix" "" []]

/-- Example fetch environment serving the two-sub-document manifest. -/
def exFetch : String → XElem := fun url =>
  if url == resource_base "v2.2.27.6" ++ "udunits2.xml" then exRegistry
  else if url == resource_base "v2.2.27.6" ++ "udunits2-base.xml" then exBaseDoc
  else if url == resource_base "v2.2.27.6" ++ "udunits2-prefixes.xml" then exPrefixesDoc
  else XElem.node "" "" []

/-- Example fetch environment whose registry lists an empty manifest. -/
def exFetchEmpty : String → XElem := fun _ => XElem.node "udunits2" "" []

/-- Example fetch environment whose registry lists a filename outside the
fixed prefix map. -/
def exFetchUnknown : String → XElem := fun url =>
  if url == resource_base "v2.2.27.6" ++ "udunits2.xml" then
    XElem.node "udunits2" "" [XElem.node "import" "udunits2-extras.xml" []]
  else XElem.node "" "" []

/-- Example publish environment: every call succeeds and the search on the
`current` group returns two assets. -/
def exPubEnv : PubEnv :=
  { postVersionedStatus := 200
  , searchStatus := 200
  , searchItems := [{ id := "abc123", name := "udunits2_combined.xml" },
                    { id := "def456", name := "UDUNITS-2_COPYRIGHT" }]
  , deleteStatus := fun _ => 204
  , postCurrentStatus := 200 }

/-! ## Basic lemmas about the embedding -/

/-- Induction on an element tree with the hypothesis available for every
child. -/
theorem XElem.indOn {motive : XElem → Prop}
    (h : ∀ t s cs, (∀ c ∈ cs, motive c) → motive (XElem.node t s cs)) :
    ∀ e, motive e
  | .node t s cs => h t s cs (fun c hc => XElem.indOn h c)
decreasing_by
  simp only [XElem.node.sizeOf_spec]
  have := List.sizeOf_lt_of_mem hc
  omega

theorem relabelList_eq_map (p : String) (cs : List XElem) :
    relabelList p cs = cs.map (relabel p) := by
  induction cs with
  | nil => rfl
  | cons c cs ih => simp [relabelList, ih]

theorem relabel_node (p t s : String) (cs : List XElem) :
    relabel p (.node t s cs) = .node (p ++ ":" ++ t) s (cs.map (relabel p)) := by
  rw [relabel, relabelList_eq_map]

theorem iterList_eq_flatten (cs : List XElem) :
    iterList cs = (cs.map iterElems).flatten := by
  induction cs with
  | nil => rfl
  | cons c cs ih => simp [iterList, ih]

theorem iterElems_node (t s : String) (cs : List XElem) :
    iterElems (.node t s cs) = .node t s cs :: (cs.map iterElems).flatten := by
  rw [iterElems, iterList_eq_flatten]

/-! ## Claim theorems -/

/-- C1: the claim states that the main program invokes `update_nexus` if
and only if `should_update_nexus` returns true.  The code at line 413
guards the call with `if not should_update_nexus(...)`: the merge and
publish run exactly when the staleness check returns false, and when the
check returns true (for instance in the 404 bootstrap case, in which the
check demands an update) nothing is merged or published.  This inverts
the checker's documented meaning, so the claim is recorded as a code bug;
the theorem evaluates the gate on both boolean results and the bootstrap
response. -/
theorem C1_main_gate_inverted :
    main_invokes_update true = false ∧ main_invokes_update false = true ∧
    should_update_nexus "v2.2.27.6" { status := 404, nsDecls := [] }
      = Except.ok true :=
  ⟨rfl, rfl, rfl⟩

/-- C2: `should_update_nexus` returns true on a 404 response; on a
successful fetch it extracts the sixth `/`-separated component of the
`a` (accepted) namespace URL and, provided that token passes the
two-dot-part validation, returns `latest != token` — false exactly when
the token equals the latest version, true when it differs, by pure string
comparison. -/
theorem C2_should_update_decision (latest : String) (resp : HttpResponse) :
    (resp.status = 404 → should_update_nexus latest resp = Except.ok true) ∧
    (∀ nsUrl token, resp.status ≠ 404 → resp.status < 400 →
      dictGetLast resp.nsDecls "a" = some nsUrl →
      (pySplitOn nsUrl '/').get? 5 = some token →
      2 ≤ (pySplitOn token '.').length →
      (should_update_nexus latest resp = Except.ok (latest != token) ∧
       (should_update_nexus latest resp = Except.ok false ↔ latest = token))) := by
  constructor
  · intro h
    simp [should_update_nexus, h]
  · intro nsUrl token h404 hlt ha htok hparts
    have hne : (resp.status == 404) = false := by
      simp only [beq_eq_false_iff_ne, ne_eq]
      exact h404
    have hr : raiseForStatusFails resp.status = false := by
      simp only [raiseForStatusFails, decide_eq_false_iff_not, not_le]
      exact hlt
    have hres : should_update_nexus latest resp = Except.ok (latest != token) := by
      simp only [should_update_nexus, hne, hr, Bool.false_eq_true, if_false, ha, htok]
      rw [if_neg (by omega)]
    refine ⟨hres, ?_⟩
    rw [hres]
    constructor
    · intro h
      have : (latest != token) = false := by
        injection h
      simpa using this
    · intro h
      subst h
      simp

/-- C6: on a successful (non-404, non-error) fetch, when the extracted
version token splits on `.` into fewer than two parts,
`should_update_nexus` raises the `ValueError` built from the token (the
function itself performs no remote mutation — its only remote call is the
GET whose response is its input); a token with at least two parts passes
the check and the function returns a boolean. -/
theorem C6_version_token_validation (latest : String) (resp : HttpResponse)
    (nsUrl token : String)
    (h404 : resp.status ≠ 404) (hok : resp.status < 400)
    (ha : dictGetLast resp.nsDecls "a" = some nsUrl)
    (htok : (pySplitOn nsUrl '/').get? 5 = some token) :
    ((pySplitOn token '.').length < 2 →
      should_update_nexus latest resp = Except.error (PyError.valueError
        ("nexus version " ++ token
          ++ " does not appear to be an actual version number. exiting."))) ∧
    (2 ≤ (pySplitOn token '.').length →
      ∃ b, should_update_nexus latest resp = Except.ok b) := by
  have hne : (resp.status == 404) = false := by
    simp only [beq_eq_false_iff_ne, ne_eq]
    exact h404
  have hr : raiseForStatusFails resp.status = false := by
    simp only [raiseForStatusFails, decide_eq_false_iff_not, not_le]
    exact hok
  constructor
  · intro hshort
    simp only [should_update_nexus, hne, hr, Bool.false_eq_true, if_false, ha, htok]
    rw [if_pos hshort]
  · intro hlong
    refine ⟨latest != token, ?_⟩
    simp only [should_update_nexus, hne, hr, Bool.false_eq_true, if_false, ha, htok]
    rw [if_neg (by omega)]

/-- C7: for a fetched sub-document, the merger's selection logic takes the
`unit` children; only when there are none does it take the `prefix`
children; and when there are neither it raises the structural
`ValueError` naming the sub-document, with no fallback. -/
theorem C7_element_selection (fn : String) (system : XElem) :
    (findall "unit" system ≠ [] →
      selectElems fn system = Except.ok (findall "unit" system)) ∧
    (findall "unit" system = [] → findall "prefix" system ≠ [] →
      selectElems fn system = Except.ok (findall "prefix" system)) ∧
    (findall "unit" system = [] → findall "prefix" system = [] →
      selectElems fn system = Except.error (PyError.valueError
        ("...no <prefix> or <unit> elements found in " ++ fn ++ "."))) := by
  refine ⟨?_, ?_, ?_⟩
  · intro h
    have : (findall "unit" system).length > 0 := List.length_pos.mpr h
    simp only [selectElems]
    rw [if_pos this]
  · intro hu hp
    have hlp : (findall "prefix" system).length > 0 := List.length_pos.mpr hp
    simp only [selectElems]
    rw [if_neg (by simp [hu]), if_pos hlp]
  · intro hu hp
    simp only [selectElems]
    rw [if_neg (by simp [hu]), if_neg (by simp [hp])]

/-- C4: relabeling is recursive — after the rewrite loop, the tag of the
selected element and of every descendant at any depth, in `iter` order,
is the assigned prefix, a colon, and the original tag. -/
theorem C4_relabel_recursive (p : String) (e : XElem) :
    (iterElems (relabel p e)).map XElem.tag
      = (iterElems e).map (fun d => p ++ ":" ++ d.tag) := by
  induction e using XElem.indOn with
  | h t s cs ih =>
    rw [relabel_node, iterElems_node, iterElems_node]
    simp only [List.map_cons, XElem.tag, List.map_flatten, List.map_map]
    congr 1
    congr 1
    apply List.map_congr_left
    intro c hc
    exact ih c hc

/-- Characters of a dot-separated-integers version body are never `'v'`,
so the `replace('v', '')` filter leaves them unchanged. -/
theorem stripV_of_version_body (rest : List Char)
    (hrest : ∀ c ∈ rest, c.isDigit ∨ c = '.') :
    rest.filter (fun c => c != 'v') = rest := by
  apply List.filter_eq_self.mpr
  intro c hc
  rcases hrest c hc with hd | hd
  · simp only [bne_iff_ne, ne_eq]
    intro hcv
    rw [hcv] at hd
    exact absurd hd (by decide)
  · rw [hd]
    decide

/-- C5: for a version string that is dot-separated integers optionally
prefixed with the `v` marker, the copyright comment inserted into the
combined document embeds exactly the version with the marker stripped,
together with the year of generation and the copyright-file URL built
from that stripped version. -/
theorem C5_copyright_embeds_version (version : String) (year : Nat)
    (fetch : String → XElem) (doc : CombinedDoc) (rest : List Char)
    (hv : version.data = 'v' :: rest ∨ version.data = rest)
    (hrest : ∀ c ∈ rest, c.isDigit ∨ c = '.')
    (hok : (update_nexus version year fetch).2 = Except.ok doc) :
    doc.comment =
      "Copyright " ++ toString year
        ++ " University Corporation for Atmospheric Research\n\n"
        ++ "This file is derived from the UDUNITS-2 package.  See the UDUNITS-2_COPYRIGHT\n"
        ++ "https://docs.unidata.ucar.edu/thredds/udunits2/" ++ String.mk rest
        ++ "/UDUNITS-2_COPYRIGHT for copying and\n"
        ++ "redistribution conditions.\n" := by
  have hfilter := stripV_of_version_body rest hrest
  have hstrip : stripV version = String.mk rest := by
    rcases hv with h | h
    · simp only [stripV, h, List.filter_cons]
      norm_num [hfilter]
    · simp only [stripV, h, hfilter]
  have hdoc : doc.comment = get_udunits2_copyright_text year (stripV version) := by
    rcases hps : (processSystems (resource_base version) fetch
        (manifest_of (fetch (resource_base version ++ "udunits2.xml"))) [] []).2
      with e | nsEls
    · simp only [update_nexus, hps] at hok
      cases hok
    · simp only [update_nexus, hps] at hok
      cases hok
      rfl
  rw [hdoc, hstrip]
  rfl

/-- When a sub-document contributes at least one element, the source's
selection logic agrees with the spec's "unit elements, or if none, prefix
elements". -/
theorem selectElems_of_nonempty (fn : String) (system : XElem)
    (h : (spec_selected system).isEmpty = false) :
    selectElems fn system = Except.ok (spec_selected system) := by
  by_cases hu : (findall "unit" system).isEmpty
  · have hsel : spec_selected system = findall "prefix" system := by
      simp [spec_selected, hu]
    rw [hsel] at h ⊢
    have hpl : (findall "prefix" system).length > 0 :=
      List.length_pos.mpr (by simpa using h)
    have hul : ¬((findall "unit" system).length > 0) := by
      simp [List.isEmpty_iff.mp hu]
    simp only [selectElems]
    rw [if_neg hul, if_pos hpl]
  · have hsel : spec_selected system = findall "unit" system := by
      simp [spec_selected, hu]
    rw [hsel]
    have hul : (findall "unit" system).length > 0 :=
      List.length_pos.mpr (by simpa using hu)
    simp only [selectElems]
    rw [if_pos hul]

/-- The merge loop, run over any valid manifest tail with the namespace
dict and element accumulator threaded through, succeeds and returns the
folded namespace dict together with the accumulated union of relabeled
elements in order. -/
theorem processSystems_ok (base : String) (fetch : String → XElem)
    (manifest : List String) (ns : List (String × String)) (acc : List XElem)
    (hvalid : ∀ fn ∈ manifest, (dictGet prefix_map fn).isSome = true ∧
       (spec_selected (fetch (base ++ fn))).isEmpty = false) :
    (processSystems base fetch manifest ns acc).2 =
      Except.ok
        (manifest.foldl
          (fun n fn => dictInsert n (spec_prefix_code fn) (base ++ fn)) ns,
         acc ++ spec_merged_elements base fetch manifest) := by
  induction manifest generalizing ns acc with
  | nil => simp [processSystems, spec_merged_elements]
  | cons fn rest ih =>
    obtain ⟨hsome, hsel⟩ := hvalid fn (by simp)
    obtain ⟨p, hp⟩ := Option.isSome_iff_exists.mp hsome
    have hpc : spec_prefix_code fn = p := by simp [spec_prefix_code, hp]
    have hse := selectElems_of_nonempty fn (fetch (base ++ fn)) hsel
    simp only [processSystems, hp, hse]
    rw [ih _ _ (fun g hg => hvalid g (by simp [hg]))]
    simp [spec_merged_elements, hpc, List.append_assoc]

/-- C3: for a valid manifest (every listed filename in the fixed prefix
map, every sub-document contributing unit or prefix elements), the merge
succeeds and the combined document's wrapper holds exactly the
concatenation, in manifest order, of each sub-document's selected
elements relabeled with that sub-document's assigned prefix — no element
dropped, none added, source order preserved. -/
theorem C3_merge_is_union (version : String) (year : Nat) (fetch : String → XElem)
    (hvalid : ∀ fn ∈ manifest_of (fetch (resource_base version ++ "udunits2.xml")),
      (dictGet prefix_map fn).isSome = true ∧
      (spec_selected (fetch (resource_base version ++ fn))).isEmpty = false) :
    ∃ doc, (update_nexus version year fetch).2 = Except.ok doc ∧
      doc.elements = spec_merged_elements (resource_base version) fetch
        (manifest_of (fetch (resource_base version ++ "udunits2.xml"))) := by
  have h := processSystems_ok (resource_base version) fetch
    (manifest_of (fetch (resource_base version ++ "udunits2.xml"))) [] [] hvalid
  refine ⟨buildCombined version year
    ((manifest_of (fetch (resource_base version ++ "udunits2.xml"))).foldl
      (fun n fn => dictInsert n (spec_prefix_code fn) (resource_base version ++ fn)) [])
    ([] ++ spec_merged_elements (resource_base version) fetch
      (manifest_of (fetch (resource_base version ++ "udunits2.xml")))), ?_, ?_⟩
  · simp only [update_nexus, h]
  · simp [buildCombined]

/-- Enumeration of the fixed prefix map: a successful lookup is one of the
five fixed filename/prefix pairs. -/
theorem dictGet_prefix_map_eq (fn p : String)
    (h : dictGet prefix_map fn = some p) :
    (fn = "udunits2-prefixes.xml" ∧ p = "p") ∨
    (fn = "udunits2-base.xml" ∧ p = "b") ∨
    (fn = "udunits2-derived.xml" ∧ p = "d") ∨
    (fn = "udunits2-accepted.xml" ∧ p = "a") ∨
    (fn = "udunits2-common.xml" ∧ p = "c") := by
  simp only [dictGet, prefix_map, List.find?] at h
  repeat' split at h
  all_goals simp_all

/-- Distinct filenames are assigned distinct prefix codes. -/
theorem prefix_map_inj (a b p : String) (ha : dictGet prefix_map a = some p)
    (hb : dictGet prefix_map b = some p) : a = b := by
  rcases dictGet_prefix_map_eq a p ha with ⟨h1, h2⟩ | ⟨h1, h2⟩ | ⟨h1, h2⟩ | ⟨h1, h2⟩ | ⟨h1, h2⟩ <;>
    rcases dictGet_prefix_map_eq b p hb with ⟨g1, g2⟩ | ⟨g1, g2⟩ | ⟨g1, g2⟩ | ⟨g1, g2⟩ | ⟨g1, g2⟩ <;>
    simp_all

/-- No sub-document prefix code collides with the fixed top-level `u2`
code. -/
theorem prefix_map_ne_u2 (fn p : String)
    (h : dictGet prefix_map fn = some p) : p ≠ "u2" := by
  rcases dictGet_prefix_map_eq fn p h with ⟨h1, h2⟩ | ⟨h1, h2⟩ | ⟨h1, h2⟩ | ⟨h1, h2⟩ | ⟨h1, h2⟩ <;>
    simp_all

/-- Appending the same string on the left is injective. -/
theorem string_append_left_cancel {a b c : String} (h : a ++ b = a ++ c) :
    b = c := by
  have hd : (a ++ b).data = (a ++ c).data := congrArg String.data h
  simp only [String.data_append] at hd
  exact String.ext (List.append_cancel_left hd)

/-- Python dict assignment with a key absent from the dict appends the
binding. -/
theorem dictInsert_of_fresh (l : List (String × String)) (k v : String)
    (h : ∀ q ∈ l, q.1 ≠ k) : dictInsert l k v = l ++ [(k, v)] := by
  unfold dictInsert
  rw [if_neg]
  simp only [List.any_eq_true, not_exists, not_and]
  intro q hq
  simpa using h q hq

/-- Folding dict assignments whose keys are fresh (distinct from the
initial dict's keys and pairwise distinct) appends the bindings in
order. -/
theorem foldl_dictInsert_fresh {α : Type} (f : α → String × String) :
    ∀ (l : List α) (init : List (String × String)),
      (∀ q ∈ init, ∀ a ∈ l, q.1 ≠ (f a).1) →
      (l.map (fun a => (f a).1)).Pairwise (fun x y => x ≠ y) →
      l.foldl (fun acc a => dictInsert acc (f a).1 (f a).2) init
        = init ++ l.map f
  | [], init, _, _ => by simp
  | a :: rest, init, hinit, hdist => by
    simp only [List.map_cons, List.pairwise_cons] at hdist
    rw [List.foldl_cons,
      dictInsert_of_fresh init (f a).1 (f a).2 (fun q hq => hinit q hq a (by simp)),
      foldl_dictInsert_fresh f rest (init ++ [f a]) ?_ hdist.2]
    · simp
    · intro q hq b hb
      rcases List.mem_append.mp hq with hq | hq
      · exact hinit q hq b (List.mem_cons_of_mem a hb)
      · have hqa : q = f a := by simpa using hq
        rw [hqa]
        exact hdist.1 ((f b).1) (List.mem_map_of_mem _ hb)

/-- The root attributes of the combined document, when the namespace dict
keys are distinct and distinct from `u2`: the fixed `xmlns:u2`
declaration first, then one `xmlns:` declaration per dict entry in
insertion order, and nothing else. -/
theorem buildCombined_rootAttrs_of_fresh (version : String) (year : Nat)
    (ns : List (String × String)) (els : List XElem)
    (hne : ∀ q ∈ ns, q.1 ≠ "u2")
    (hdist : (ns.map (fun q => q.1)).Pairwise (fun x y => x ≠ y)) :
    (buildCombined version year ns els).rootAttrs
      = ("xmlns:" ++ udunits2_pfx, udunits2_uri) ::
          ns.map (fun q => ("xmlns:" ++ q.1, q.2)) := by
  have h := foldl_dictInsert_fresh (fun q : String × String => ("xmlns:" ++ q.1, q.2)) ns
    [("xmlns:" ++ udunits2_pfx, udunits2_uri)] ?_ ?_
  · simp only [buildCombined]
    exact h
  · intro q hq a ha
    have hq1 : q = ("xmlns:" ++ udunits2_pfx, udunits2_uri) := by simpa using hq
    rw [hq1]
    intro heq
    exact hne a ha (string_append_left_cancel heq.symm)
  · rw [List.pairwise_map]
    rw [List.pairwise_map] at hdist
    apply hdist.imp
    intro a b hab heq
    exact hab (string_append_left_cancel heq)

/-- C8: for a valid manifest with pairwise-distinct filenames, the merge
succeeds and the combined document's root carries exactly the fixed
`xmlns:u2` declaration plus one declaration per sub-document (its
assigned prefix code mapped to its source URL), in manifest order and no
others; and the wrapper holds one prefixed element per selected source
element, so its length is the sum of the per-sub-document counts (five in
the spec's three-unit/two-prefix scenario). -/
theorem C8_namespace_declarations (version : String) (year : Nat)
    (fetch : String → XElem)
    (hvalid : ∀ fn ∈ manifest_of (fetch (resource_base version ++ "udunits2.xml")),
      (dictGet prefix_map fn).isSome = true ∧
      (spec_selected (fetch (resource_base version ++ fn))).isEmpty = false)
    (hdist : (manifest_of (fetch (resource_base version ++ "udunits2.xml"))).Pairwise
      (fun x y => x ≠ y)) :
    ∃ doc, (update_nexus version year fetch).2 = Except.ok doc ∧
      doc.rootAttrs = ("xmlns:" ++ udunits2_pfx, udunits2_uri) ::
        (manifest_of (fetch (resource_base version ++ "udunits2.xml"))).map
          (fun fn => ("xmlns:" ++ spec_prefix_code fn, resource_base version ++ fn)) ∧
      doc.elements.length =
        ((manifest_of (fetch (resource_base version ++ "udunits2.xml"))).map
          (fun fn => (spec_selected (fetch (resource_base version ++ fn))).length)).sum := by
  have h := processSystems_ok (resource_base version) fetch
    (manifest_of (fetch (resource_base version ++ "udunits2.xml"))) [] [] hvalid
  have hpcPairwise : ((manifest_of (fetch (resource_base version ++ "udunits2.xml"))).map
      (fun fn => spec_prefix_code fn)).Pairwise (fun x y => x ≠ y) := by
    rw [List.pairwise_map]
    apply hdist.imp_of_mem
    intro a b ha hb hab heq
    obtain ⟨pa, hpa⟩ := Option.isSome_iff_exists.mp (hvalid a ha).1
    obtain ⟨pb, hpb⟩ := Option.isSome_iff_exists.mp (hvalid b hb).1
    have hpca : spec_prefix_code a = pa := by simp [spec_prefix_code, hpa]
    have hpcb : spec_prefix_code b = pb := by simp [spec_prefix_code, hpb]
    rw [hpca, hpcb] at heq
    exact hab (prefix_map_inj a b pa hpa (heq ▸ hpb))
  have hns : (manifest_of (fetch (resource_base version ++ "udunits2.xml"))).foldl
      (fun n fn => dictInsert n (spec_prefix_code fn) (resource_base version ++ fn)) []
      = (manifest_of (fetch (resource_base version ++ "udunits2.xml"))).map
          (fun fn => (spec_prefix_code fn, resource_base version ++ fn)) := by
    have h2 := foldl_dictInsert_fresh
      (fun fn => (spec_prefix_code fn, resource_base version ++ fn))
      (manifest_of (fetch (resource_base version ++ "udunits2.xml"))) []
      (by simp) hpcPairwise
    simpa using h2
  refine ⟨buildCombined version year
    ((manifest_of (fetch (resource_base version ++ "udunits2.xml"))).foldl
      (fun n fn => dictInsert n (spec_prefix_code fn) (resource_base version ++ fn)) [])
    ([] ++ spec_merged_elements (resource_base version) fetch
      (manifest_of (fetch (resource_base version ++ "udunits2.xml")))),
    by simp only [update_nexus, h], ?_, ?_⟩
  · rw [hns]
    rw [buildCombined_rootAttrs_of_fresh]
    · simp
    · intro q hq
      obtain ⟨fn, hfn, hq1⟩ := List.mem_map.mp hq
      obtain ⟨p, hp⟩ := Option.isSome_iff_exists.mp (hvalid fn hfn).1
      have hpc : spec_prefix_code fn = p := by simp [spec_prefix_code, hp]
      rw [← hq1]
      simpa [hpc] using prefix_map_ne_u2 fn p hp
    · rw [List.pairwise_map, List.pairwise_map]
      rw [List.pairwise_map] at hpcPairwise
      exact hpcPairwise
  · simp only [buildCombined, spec_merged_elements, List.nil_append,
      List.length_flatten, List.map_map]
    congr 1
    apply List.map_congr_left
    intro fn hfn
    simp
/-- The delete loop's trace is always a prefix of one delete per
truthy-id search item in order; it completes normally exactly when every
such delete succeeds, and then the trace is the whole sequence. -/
theorem runDeletes_spec (ds : String → Nat) :
    ∀ items : List SearchItem,
      (runDeletes ds items).1 <+:
        (items.filter (fun i => i.id != "")).map (fun i => PubOp.delete i.id) ∧
      ((runDeletes ds items).2 = Except.ok () ↔
        ∀ i ∈ items, i.id ≠ "" → ds i.id < 400) ∧
      ((runDeletes ds items).2 = Except.ok () →
        (runDeletes ds items).1 =
          (items.filter (fun i => i.id != "")).map (fun i => PubOp.delete i.id))
  | [] => by
    refine ⟨by simp [runDeletes], by simp [runDeletes], by simp [runDeletes]⟩
  | item :: rest => by
    obtain ⟨ih1, ih2, ih3⟩ := runDeletes_spec ds rest
    by_cases hid : (item.id != "") = true
    · have hid' : item.id ≠ "" := by simpa using hid
      have hfilter : (item :: rest).filter (fun i => i.id != "")
          = item :: rest.filter (fun i => i.id != "") := by
        simp [List.filter_cons, hid]
      by_cases hfail : raiseForStatusFails (ds item.id) = true
      · have hge : ¬ ds item.id < 400 := by
          simp only [raiseForStatusFails, decide_eq_true_eq] at hfail
          omega
        have hrd : runDeletes ds (item :: rest)
            = ([PubOp.delete item.id],
               Except.error (PyError.httpError (ds item.id))) := by
          simp only [runDeletes]
          rw [if_pos hid, if_pos hfail]
        refine ⟨?_, ?_, ?_⟩
        · rw [hrd, hfilter, List.map_cons]
          exact ⟨_, rfl⟩
        · rw [hrd]
          constructor
          · intro h
            exact absurd h (by simp)
          · intro h
            exact absurd (h item (by simp) hid') hge
        · rw [hrd]
          intro h
          exact absurd h (by simp)
      · have hlt : ds item.id < 400 := by
          simp only [raiseForStatusFails, decide_eq_true_eq] at hfail
          omega
        have hrd : runDeletes ds (item :: rest)
            = (PubOp.delete item.id :: (runDeletes ds rest).1,
               (runDeletes ds rest).2) := by
          simp only [runDeletes]
          rw [if_pos hid, if_neg hfail]
        refine ⟨?_, ?_, ?_⟩
        · rw [hrd, hfilter, List.map_cons]
          exact (List.cons_prefix_cons).mpr ⟨rfl, ih1⟩
        · rw [hrd]
          show (runDeletes ds rest).2 = Except.ok () ↔ _
          rw [ih2]
          constructor
          · intro h i hi hine
            rcases List.mem_cons.mp hi with hi | hi
            · rw [hi]
              exact hlt
            · exact h i hi hine
          · intro h i hi hine
            exact h i (List.mem_cons_of_mem _ hi) hine
        · rw [hrd, hfilter, List.map_cons]
          show (runDeletes ds rest).2 = Except.ok () → _
          intro h
          show PubOp.delete item.id :: (runDeletes ds rest).1 = _
          rw [ih3 h]
    · have hid0 : item.id = "" := by simpa using hid
      have hrd : runDeletes ds (item :: rest) = runDeletes ds rest := by
        simp only [runDeletes]
        rw [if_neg hid]
      have hfilter : (item :: rest).filter (fun i => i.id != "")
          = rest.filter (fun i => i.id != "") := by
        simp [List.filter_cons, hid0]
      refine ⟨?_, ?_, ?_⟩
      · rw [hrd, hfilter]
        exact ih1
      · rw [hrd, ih2]
        constructor
        · intro h i hi hine
          rcases List.mem_cons.mp hi with hi | hi
          · rw [hi] at hine
            exact absurd hid0 hine
          · exact h i hi hine
        · intro h i hi hine
          exact h i (List.mem_cons_of_mem _ hi) hine
      · rw [hrd, hfilter]
        exact ih3

/-- C9: the publisher's remote operations occur in order — versioned
upload first, then the search of the `current` group, then exactly one
delete per asset the search returned (in order), then the rewind and the
upload to `current` last.  Its trace is always a prefix of that full
sequence: a non-2xx response at any step truncates the run right there,
with no retry and no rollback, and the run completes normally exactly
when every step's response is below 400. -/
theorem C9_publish_sequence (version : String) (env : PubEnv) :
    (publish_to_nexus version env).1 <+: spec_publish_trace version env ∧
    ((publish_to_nexus version env).2 = Except.ok () →
      (publish_to_nexus version env).1 = spec_publish_trace version env) ∧
    ((publish_to_nexus version env).2 = Except.ok () ↔
      (env.postVersionedStatus < 400 ∧ env.searchStatus < 400 ∧
       (∀ item ∈ env.searchItems, item.id ≠ "" → env.deleteStatus item.id < 400) ∧
       env.postCurrentStatus < 400)) := by
  obtain ⟨rd1, rd2, rd3⟩ := runDeletes_spec env.deleteStatus env.searchItems
  by_cases hv : raiseForStatusFails env.postVersionedStatus = true
  · have hge : ¬ env.postVersionedStatus < 400 := by
      simp only [raiseForStatusFails, decide_eq_true_eq] at hv
      omega
    have hpub : publish_to_nexus version env
        = ([PubOp.post (raw_directory_versioned version)],
           Except.error (PyError.httpError env.postVersionedStatus)) := by
      simp only [publish_to_nexus]
      rw [if_pos hv]
    rw [hpub]
    refine ⟨⟨_, rfl⟩, ?_, ?_⟩
    · intro h
      exact absurd h (by simp)
    · constructor
      · intro h
        exact absurd h (by simp)
      · rintro ⟨h1, -, -, -⟩
        exact absurd h1 hge
  · have hvlt : env.postVersionedStatus < 400 := by
      simp only [raiseForStatusFails, decide_eq_true_eq] at hv
      omega
    by_cases hs : raiseForStatusFails env.searchStatus = true
    · have hge : ¬ env.searchStatus < 400 := by
        simp only [raiseForStatusFails, decide_eq_true_eq] at hs
        omega
      have hpub : publish_to_nexus version env
          = ([PubOp.post (raw_directory_versioned version)] ++
              [PubOp.search (rstripSlash raw_directory_current)],
             Except.error (PyError.httpError env.searchStatus)) := by
        simp only [publish_to_nexus]
        rw [if_neg hv, if_pos hs]
      rw [hpub]
      refine ⟨⟨_, rfl⟩, ?_, ?_⟩
      · intro h
        exact absurd h (by simp)
      · constructor
        · intro h
          exact absurd h (by simp)
        · rintro ⟨-, h2, -, -⟩
          exact absurd h2 hge
    · have hslt : env.searchStatus < 400 := by
        simp only [raiseForStatusFails, decide_eq_true_eq] at hs
        omega
      rcases hd : (runDeletes env.deleteStatus env.searchItems).2 with e | u
      · have hpub : publish_to_nexus version env
            = ([PubOp.post (raw_directory_versioned version)] ++
                [PubOp.search (rstripSlash raw_directory_current)] ++
                (runDeletes env.deleteStatus env.searchItems).1,
               Except.error e) := by
          simp only [publish_to_nexus]
          rw [if_neg hv, if_neg hs, hd]
        rw [hpub]
        obtain ⟨t, ht⟩ := rd1
        refine ⟨?_, ?_, ?_⟩
        · refine ⟨t ++ [PubOp.seekZero, PubOp.post raw_directory_current], ?_⟩
          simp only [spec_publish_trace, ← ht]
          simp [List.append_assoc]
        · intro h
          exact absurd h (by simp)
        · constructor
          · intro h
            exact absurd h (by simp)
          · rintro ⟨-, -, h3, -⟩
            have hok := rd2.mpr h3
            rw [hd] at hok
            cases hok
      · rcases u
        have hall := rd2.mp hd
        have hd1 := rd3 hd
        by_cases hc : raiseForStatusFails env.postCurrentStatus = true
        · have hge : ¬ env.postCurrentStatus < 400 := by
            simp only [raiseForStatusFails, decide_eq_true_eq] at hc
            omega
          have hpub : publish_to_nexus version env
              = ([PubOp.post (raw_directory_versioned version)] ++
                  [PubOp.search (rstripSlash raw_directory_current)] ++
                  (runDeletes env.deleteStatus env.searchItems).1 ++
                  [PubOp.seekZero, PubOp.post raw_directory_current],
                 Except.error (PyError.httpError env.postCurrentStatus)) := by
            simp only [publish_to_nexus]
            rw [if_neg hv, if_neg hs, hd, if_pos hc]
          have htr : ([PubOp.post (raw_directory_versioned version)] ++
              [PubOp.search (rstripSlash raw_directory_current)] ++
              (runDeletes env.deleteStatus env.searchItems).1 ++
              [PubOp.seekZero, PubOp.post raw_directory_current])
              = spec_publish_trace version env := by
            rw [hd1]
            simp [spec_publish_trace, List.append_assoc]
          rw [hpub, htr]
          refine ⟨List.prefix_refl _, ?_, ?_⟩
          · intro h
            exact absurd h (by simp)
          · constructor
            · intro h
              exact absurd h (by simp)
            · rintro ⟨-, -, -, h4⟩
              exact absurd h4 hge
        · have hclt : env.postCurrentStatus < 400 := by
            simp only [raiseForStatusFails, decide_eq_true_eq] at hc
            omega
          have hpub : publish_to_nexus version env
              = ([PubOp.post (raw_directory_versioned version)] ++
                  [PubOp.search (rstripSlash raw_directory_current)] ++
                  (runDeletes env.deleteStatus env.searchItems).1 ++
                  [PubOp.seekZero, PubOp.post raw_directory_current],
                 Except.ok ()) := by
            simp only [publish_to_nexus]
            rw [if_neg hv, if_neg hs, hd, if_neg hc]
          have htr : ([PubOp.post (raw_directory_versioned version)] ++
              [PubOp.search (rstripSlash raw_directory_current)] ++
              (runDeletes env.deleteStatus env.searchItems).1 ++
              [PubOp.seekZero, PubOp.post raw_directory_current])
              = spec_publish_trace version env := by
            rw [hd1]
            simp [spec_publish_trace, List.append_assoc]
          rw [hpub, htr]
          refine ⟨List.prefix_refl _, fun _ => rfl, ?_⟩
          constructor
          · intro _
            exact ⟨hvlt, hslt, hall, hclt⟩
          · intro _
            rfl

/-- Running the merge loop over a manifest whose first offending entry is
a filename outside the fixed prefix map raises `KeyError` on that
filename, and the loop's fetch trace covers exactly the entries before
it — the offending sub-document is never fetched. -/
theorem processSystems_keyError (base : String) (fetch : String → XElem) :
    ∀ (pre : List String) (fn : String) (rest : List String)
      (ns : List (String × String)) (acc : List XElem),
      (∀ g ∈ pre, (dictGet prefix_map g).isSome = true ∧
        (spec_selected (fetch (base ++ g))).isEmpty = false) →
      dictGet prefix_map fn = none →
      (processSystems base fetch (pre ++ fn :: rest) ns acc).2
          = Except.error (PyError.keyError fn) ∧
      (processSystems base fetch (pre ++ fn :: rest) ns acc).1
          = pre.map (fun g => base ++ g)
  | [], fn, rest, ns, acc, _, hfn => by
    refine ⟨?_, ?_⟩ <;> simp [processSystems, hfn]
  | g :: pre, fn, rest, ns, acc, hpre, hfn => by
    obtain ⟨hsome, hsel⟩ := hpre g (by simp)
    obtain ⟨p, hp⟩ := Option.isSome_iff_exists.mp hsome
    have hse := selectElems_of_nonempty g (fetch (base ++ g)) hsel
    have ih := processSystems_keyError base fetch pre fn rest
      (dictInsert ns p (base ++ g))
      (acc ++ (spec_selected (fetch (base ++ g))).map (relabel p))
      (fun q hq => hpre q (by simp [hq])) hfn
    simp only [List.cons_append, processSystems, hp, hse]
    refine ⟨ih.1, ?_⟩
    rw [List.map_cons]
    exact congrArg (fun l => (base ++ g) :: l) ih.2

/-- C10: a manifest listing a filename outside the five fixed entries
makes the merger fail with a `KeyError` on that filename (raised by the
prefix-map lookup, before the fetch of that sub-document, whose URL never
appears in the loop's fetch trace), so no combined document is
produced. -/
theorem C10_unknown_filename (version : String) (year : Nat)
    (fetch : String → XElem) (pre : List String) (fn : String) (rest : List String)
    (hman : manifest_of (fetch (resource_base version ++ "udunits2.xml"))
      = pre ++ fn :: rest)
    (hpre : ∀ g ∈ pre, (dictGet prefix_map g).isSome = true ∧
      (spec_selected (fetch (resource_base version ++ g))).isEmpty = false)
    (hfn : dictGet prefix_map fn = none) :
    (update_nexus version year fetch).2 = Except.error (PyError.keyError fn) ∧
    (resource_base version ++ fn) ∉ (update_nexus version year fetch).1 := by
  obtain ⟨h2, h1⟩ := processSystems_keyError (resource_base version) fetch
    pre fn rest [] [] hpre hfn
  constructor
  · simp only [update_nexus, hman, h2]
  · simp only [update_nexus, hman, h1]
    intro hmem
    obtain ⟨g, hg, heq⟩ := List.mem_map.mp hmem
    have hgfn : g = fn := string_append_left_cancel heq
    rw [hgfn] at hg
    have hsome := (hpre fn hg).1
    rw [hfn] at hsome
    simp at hsome

/-! ## Witnesses -/

/-- Witness for C2: concrete matching and differing latest versions
against a published document whose accepted-namespace URL embeds
`v2.2.27.6`. -/
theorem C2_should_update_decision_witness :
    should_update_nexus "v2.2.27.6"
      { status := 200,
        nsDecls := [("a",
          "https://raw.githubusercontent.com/Unidata/UDUNITS-2/v2.2.27.6/lib/udunits2-accepted.xml")] }
      = Except.ok false ∧
    should_update_nexus "v9.9.9"
      { status := 200,
        nsDecls := [("a",
          "https://raw.githubusercontent.com/Unidata/UDUNITS-2/v2.2.27.6/lib/udunits2-accepted.xml")] }
      = Except.ok true := by
  constructor
  · exact ((C2_should_update_decision "v2.2.27.6"
      { status := 200,
        nsDecls := [("a",
          "https://raw.githubusercontent.com/Unidata/UDUNITS-2/v2.2.27.6/lib/udunits2-accepted.xml")] }).2
      _ "v2.2.27.6" (by decide) (by decide) rfl rfl (by decide)).2.mpr rfl
  · have h := ((C2_should_update_decision "v9.9.9"
      { status := 200,
        nsDecls := [("a",
          "https://raw.githubusercontent.com/Unidata/UDUNITS-2/v2.2.27.6/lib/udunits2-accepted.xml")] }).2
      _ "v2.2.27.6" (by decide) (by decide) rfl rfl (by decide)).1
    rw [h]
    rfl

/-- Witness for C3: the two-sub-document manifest merges into exactly the
three `b:unit` elements followed by the two `p:prefix` elements. -/
theorem C3_merge_is_union_witness :
    (update_nexus "v2.2.27.6" 2026 exFetch).2.map (fun d => d.elements.map XElem.tag)
      = Except.ok ["b:unit", "b:unit", "b:unit", "p:prefix", "p:prefix"] := by
  obtain ⟨doc, hok, hels⟩ := C3_merge_is_union "v2.2.27.6" 2026 exFetch (by decide)
  rw [hok]
  simp only [Except.map]
  rw [hels]
  rfl

/-- Witness for C5: merging version `v2.3` in 2026 produces the comment
with the stripped version spliced into the text and the URL. -/
theorem C5_copyright_embeds_version_witness :
    (update_nexus "v2.3" 2026 exFetchEmpty).2.map CombinedDoc.comment
      = Except.ok
          ("Copyright 2026 University Corporation for Atmospheric Research\n\nThis file is derived from the UDUNITS-2 package.  See the UDUNITS-2_COPYRIGHT\nhttps://docs.unidata.ucar.edu/thredds/udunits2/2.3/UDUNITS-2_COPYRIGHT for copying and\nredistribution conditions.\n") := by
  have h := C5_copyright_embeds_version "v2.3" 2026 exFetchEmpty
    (buildCombined "v2.3" 2026 [] []) ("2.3".data) (Or.inl rfl) (by decide) rfl
  rw [show (update_nexus "v2.3" 2026 exFetchEmpty).2
      = Except.ok (buildCombined "v2.3" 2026 [] []) from rfl]
  simp only [Except.map]
  rw [h]
  rfl

/-- Witness for C6: a published document whose embedded token `vX` has no
dot makes the checker raise the validation error. -/
theorem C6_version_token_validation_witness :
    should_update_nexus "v1.2"
      { status := 200,
        nsDecls := [("a",
          "https://raw.githubusercontent.com/Unidata/UDUNITS-2/vX/lib/udunits2-accepted.xml")] }
      = Except.error (PyError.valueError
          "nexus version vX does not appear to be an actual version number. exiting.") := by
  exact (C6_version_token_validation "v1.2"
    { status := 200,
      nsDecls := [("a",
        "https://raw.githubusercontent.com/Unidata/UDUNITS-2/vX/lib/udunits2-accepted.xml")] }
    _ "vX" (by decide) (by decide) rfl rfl).1 (by decide)

/-- Witness for C7: a sub-document with neither `unit` nor `prefix`
children raises the structural error naming it. -/
theorem C7_element_selection_witness :
    selectElems "udunits2-base.xml" (XElem.node "unit-system" "" [])
      = Except.error (PyError.valueError
          "...no <prefix> or <unit> elements found in udunits2-base.xml.") :=
  (C7_element_selection "udunits2-base.xml" (XElem.node "unit-system" "" [])).2.2 rfl rfl

/-- Witness for C8: two sub-documents with three `unit` and two `prefix`
elements give exactly five wrapped elements and two namespace
declarations besides the fixed `xmlns:u2` one. -/
theorem C8_namespace_declarations_witness :
    (update_nexus "v2.2.27.6" 2026 exFetch).2.map
        (fun d => (d.rootAttrs, d.elements.length))
      = Except.ok
          ([("xmlns:u2", "https://doi.org/10.5065/D6KD1WN0"),
            ("xmlns:b",
             "https://raw.githubusercontent.com/Unidata/UDUNITS-2/v2.2.27.6/lib/udunits2-base.xml"),
            ("xmlns:p",
             "https://raw.githubusercontent.com/Unidata/UDUNITS-2/v2.2.27.6/lib/udunits2-prefixes.xml")],
           5) := by
  obtain ⟨doc, hok, hattrs, hlen⟩ := C8_namespace_declarations "v2.2.27.6" 2026 exFetch
    (by decide) (by decide)
  rw [hok]
  simp only [Except.map]
  rw [hattrs, hlen]
  rfl

/-- Witness for C9: with two searched assets and all-2xx responses, the
publish trace is exactly versioned upload, search, the two deletes in
search order, rewind, and the `current` upload. -/
theorem C9_publish_sequence_witness :
    (publish_to_nexus "2.2.27.6" exPubEnv).2 = Except.ok () ∧
    (publish_to_nexus "2.2.27.6" exPubEnv).1
      = [PubOp.post "/udunits2/2.2.27.6/", PubOp.search "/udunits2/current",
         PubOp.delete "abc123", PubOp.delete "def456", PubOp.seekZero,
         PubOp.post "/udunits2/current/"] := by
  obtain ⟨hpre, himp, hiff⟩ := C9_publish_sequence "2.2.27.6" exPubEnv
  have hok : (publish_to_nexus "2.2.27.6" exPubEnv).2 = Except.ok () :=
    hiff.mpr (by decide)
  refine ⟨hok, ?_⟩
  rw [himp hok]
  rfl

/-- Witness for C10: a registry importing `udunits2-extras.xml` fails
with the `KeyError` for that filename and never fetches its URL. -/
theorem C10_unknown_filename_witness :
    (update_nexus "v2.2.27.6" 2026 exFetchUnknown).2
      = Except.error (PyError.keyError "udunits2-extras.xml") ∧
    (resource_base "v2.2.27.6" ++ "udunits2-extras.xml")
      ∉ (update_nexus "v2.2.27.6" 2026 exFetchUnknown).1 :=
  C10_unknown_filename "v2.2.27.6" 2026 exFetchUnknown [] "udunits2-extras.xml" []
    rfl (by simp) rfl
